import Mathlib

/-!
Verification of the asynchronous HTTP-response handling framework of
`indra/llmessage/llhttpclient.h` (the responder class ladder of `LLHTTPClient`):
the header/cookie collector, the once-only completion lifecycle, the decoding
cascade (raw / structured / typed success-error), the legacy polling adapter and
the intrusive reference counting of responder handles.

The header file under `src/` is the authority.  Function bodies that live in the
(absent) `llhttpclient.cpp`, the collector class `AIHTTPReceivedHeaders`
(`aihttpheaders.h`) and the status-code constants (`llhttpstatuscodes.h`) are
modelled from the spec and from the declarations' own comments in the header;
each such definition says so in its doc comment.
-/

namespace LLHTTP

/-! ## Header/cookie collector -/

/-- Modelled from the spec: the header collector `AIHTTPReceivedHeaders`
(declared in `aihttpheaders.h`, which is not under `src/`) is an ordered
multi-valued mapping from header name to value, with case-insensitive name
matching and insertion order preserved per name.  We model it as the
insertion-ordered list of `(name, value)` pairs. -/
abbrev Headers := List (String × String)

/-- Case-insensitive normalisation of a header name: lower-case every
character. -/
def lowerName (s : String) : String := String.mk (s.data.map Char.toLower)

/-- Case-insensitive header-name comparison used by the collector. -/
def headerMatch (a b : String) : Bool := lowerName a == lowerName b

/-- Modelled from the spec: `addHeader(name, value)` appends a value under
`name`; multiple values per name are permitted and no entry is ever silently
overwritten. -/
def addHeader (hs : Headers) (key value : String) : Headers := hs ++ [(key, value)]

/-- Modelled from the spec: the iterator range produced by
`getValues(name, range)` — the `(name, value)` entries whose name matches
case-insensitively, in insertion order. -/
def getValuesRange (hs : Headers) (key : String) : List (String × String) :=
  hs.filter (fun p => headerMatch p.1 key)

/-- Modelled from the spec: `getValues(name)` — the ordered sequence of values
held under the case-insensitive name; the empty list plays the role of
"not found". -/
def getValues (hs : Headers) (key : String) : List String :=
  (getValuesRange hs key).map (fun p => p.2)

/-- Folding a whole sequence of `addHeader` calls into a collector. -/
def ofPairs (pairs : List (String × String)) : Headers :=
  pairs.foldl (fun m p => addHeader m p.1 p.2) []

/-! ## LLSD values and body decoding -/

/-- Modelled from the spec: a structured LLSD document is a self-describing
dynamically-typed value; the decoding cascade only needs to distinguish the
empty/absent value (`undef`), a raw body copied as-is into the value (`str`),
and an abstract successfully parsed document (`parsedDoc`). -/
inductive LLSD where
  | undef : LLSD
  | str : String → LLSD
  | parsedDoc : String → LLSD
deriving Repr, DecidableEq

/-- The HTTP success-range check used by the decoding cascade
(spec: success range is status 200–299). -/
def isSuccess (status : Nat) : Bool := decide (200 ≤ status ∧ status < 300)

/-- `ResponderBase::decode_llsd_body` (declared at `llhttpclient.h:112`; body is
not under `src/`).  Modelled from the spec and the declaration's comment:
"Read body from buffer and put it into content.  If status indicates success,
interpret it as LLSD, otherwise copy it as-is"; a body that fails to parse is
treated as the empty/absent structured value (the cascade has no separate
malformed-body channel).  The external LLSD codec is the parameter `parse`. -/
def decode_llsd_body (parse : String → Option LLSD) (status : Nat) (buffer : String) : LLSD :=
  if isSuccess status then (parse buffer).getD LLSD.undef else LLSD.str buffer

/-- `ResponderBase::decode_raw_body` (declared at `llhttpclient.h:115`; body is
not under `src/`).  The declaration's comment: "Always copy it as-is". -/
def decode_raw_body (buffer : String) : String := buffer

/-! ## Responder state and the event phase -/

/-- The data members of `LLHTTPClient::ResponderBase`
(`llhttpclient.h:117-128`): the associated URL, the headers received from the
server, the curl result code and the finished flag. -/
structure ResponderState where
  mURL : String
  mReceivedHeaders : Headers
  mCode : Nat
  mFinished : Bool
deriving Repr, DecidableEq

/-- The `ResponderBase` constructor (body not under `src/`).  Modelled from the
spec: `finished` is "false until completion", the collector starts empty, the
curl code starts at `CURLE_OK = 0` and the URL is empty until `setURL`. -/
def ResponderState.init : ResponderState :=
  { mURL := "", mReceivedHeaders := [], mCode := 0, mFinished := false }

/-- `ResponderBase::setURL` (declared at `llhttpclient.h:133`): records the URL
of the current request for debug output. -/
def setURL (s : ResponderState) (url : String) : ResponderState :=
  { s with mURL := url }

/-- `ResponderBase::received_HTTP_header` (`llhttpclient.h:154-170`): on the
status line of a (possibly redirected-to) response, erase all held headers
EXCEPT the cookies — collect every `set-cookie` entry into a fresh collector
via `addHeader` and `swap` it in. -/
def received_HTTP_header (s : ResponderState) : ResponderState :=
  let cookies := getValuesRange s.mReceivedHeaders "set-cookie"
  let set_cookie_headers := cookies.foldl (fun hs p => addHeader hs p.1 p.2) ([] : Headers)
  { s with mReceivedHeaders := set_cookie_headers }

/-- `ResponderBase::received_header` (`llhttpclient.h:173-176`): append the
header to the collector. -/
def received_header (s : ResponderState) (key value : String) : ResponderState :=
  { s with mReceivedHeaders := addHeader s.mReceivedHeaders key value }

/-- The three non-terminal transport events of `AIBufferedCurlEasyRequestEvents`
(`llhttpclient.h:63-67`): the status line, one subsequent header, and the
headers-complete notification carrying `(status, reason)`. -/
inductive BaseEvent where
  | statusLine : BaseEvent
  | header : String → String → BaseEvent
  | headersDone : Nat → String → BaseEvent
deriving Repr, DecidableEq

/-- State effect of one non-terminal event on a responder
(`llhttpclient.h:154-182`); `completed_headers` only forwards to the virtual
`completedHeaders` hook and does not change the state. -/
def runBaseEvent (s : ResponderState) : BaseEvent → ResponderState
  | .statusLine => received_HTTP_header s
  | .header k v => received_header s k v
  | .headersDone _ _ => s

/-- A whole sequence of non-terminal events delivered by the engine. -/
def runBaseEvents (s : ResponderState) (evs : List BaseEvent) : ResponderState :=
  evs.foldl runBaseEvent s

/-! ## Hook invocations (the observables of the decoding cascade) -/

/-- One invocation of a caller-visible virtual hook, or of a framework default
(`logCall` for the default `error` that "prints the error to llinfos",
`abortCall` for the default `ResponderWithCompleted::completed` which
"aborts, as it should never be called", `llhttpclient.h:281-282`). -/
inductive HookCall where
  | completedHeadersCall : Nat → String → Headers → HookCall
  | completedRawCall : Nat → String → String → HookCall
  | completedCall : Nat → String → LLSD → HookCall
  | resultCall : LLSD → HookCall
  | errorWithContentCall : Nat → String → LLSD → HookCall
  | errorCall : Nat → String → HookCall
  | logCall : Nat → String → HookCall
  | abortCall : HookCall
deriving Repr, DecidableEq

/-- Whether a hook invocation is a fatal fault (process abort) rather than a
normal continue-after-logging path. -/
def HookCall.isFatal : HookCall → Bool
  | .abortCall => true
  | _ => false

/-! ## ResponderWithCompleted (structured layer over raw) -/

/-- Which virtual hooks a concrete `ResponderWithCompleted` subclass overrides
(the source requires overriding exactly one of `completedRaw` / `completed`). -/
structure WCompletedCls where
  rawOverridden : Bool
  completedOverridden : Bool
deriving Repr, DecidableEq

/-- Virtual dispatch of `completedRaw` for a `ResponderWithCompleted`
(`llhttpclient.h:276-283`).  An overriding subclass receives the body verbatim.
The default `completedRaw` (body not under `src/`; its comment: "The default is
to interpret the content as LLSD and call completed()") decodes the body via
`decode_llsd_body` and invokes the virtual `completed` hook; the default
`completed`, if not overridden either, "aborts, as it should never be called". -/
def wcompleted_dispatch (parse : String → Option LLSD) (cls : WCompletedCls)
    (status : Nat) (rsn buffer : String) : List HookCall :=
  if cls.rawOverridden then
    [.completedRawCall status rsn (decode_raw_body buffer)]
  else
    let content := decode_llsd_body parse status buffer
    .completedCall status rsn content ::
      (if cls.completedOverridden then [] else [.abortCall])

/-- `ResponderWithCompleted::finished` (`llhttpclient.h:264-271`):
`mCode = code; completedRaw(http_status, reason, channels, buffer);
mFinished = true;`. -/
def wcompleted_finished (parse : String → Option LLSD) (cls : WCompletedCls)
    (s : ResponderState) (code status : Nat) (rsn buffer : String) :
    ResponderState × List HookCall :=
  ({ s with mCode := code, mFinished := true },
   wcompleted_dispatch parse cls status rsn buffer)

/-! ## ResponderWithResult (typed success/error layer) -/

/-- Which error hooks a concrete `ResponderWithResult` subclass overrides
(`result` is pure virtual and therefore always overridden). -/
structure WResultCls where
  ewcOverridden : Bool
  errOverridden : Bool
deriving Repr, DecidableEq

/-- Typed dispatch of `ResponderWithResult` (hooks declared at
`llhttpclient.h:311-320`; bodies not under `src/`).  Modelled from the spec:
success-range status decodes the body and invokes the required `result` hook;
a non-success status invokes `errorWithContent(status, reason, content)`; the
default `errorWithContent` "calls error()" and the default `error` "prints the
error to llinfos" (a non-fatal log). -/
def wresult_dispatch (parse : String → Option LLSD) (cls : WResultCls)
    (status : Nat) (rsn buffer : String) : List HookCall :=
  let content := decode_llsd_body parse status buffer
  if isSuccess status then
    [.resultCall content]
  else
    .errorWithContentCall status rsn content ::
      (if cls.ewcOverridden then []
       else .errorCall status rsn ::
         (if cls.errOverridden then [] else [.logCall status rsn]))

/-- `ResponderWithResult::finished` (declared at `llhttpclient.h:306`; body not
under `src/`).  Modelled from the spec: record the transport code, route the
decoded body through the typed dispatch, set the finished flag. -/
def wresult_finished (parse : String → Option LLSD) (cls : WResultCls)
    (s : ResponderState) (code status : Nat) (rsn buffer : String) :
    ResponderState × List HookCall :=
  ({ s with mCode := code, mFinished := true },
   wresult_dispatch parse cls status rsn buffer)

/-! ## ResponderHeadersOnly -/

/-- `ResponderHeadersOnly::finished` (`llhttpclient.h:232-238`):
`mCode = code; completedHeaders(http_status, reason, mReceivedHeaders);
mFinished = true;` — the default `completedHeaders` does nothing
(`llhttpclient.h:207-210`). -/
def headersOnly_finished (s : ResponderState) (code status : Nat) (rsn : String) :
    ResponderState × List HookCall :=
  ({ s with mCode := code, mFinished := true },
   [.completedHeadersCall status rsn s.mReceivedHeaders])

/-! ## LegacyPolledResponder (polling adapter) -/

/-- `HTTP_INTERNAL_ERROR`: modelled from the spec and `llhttpstatuscodes.h`
(not under `src/`): the HTTP 500 status constant used as the pre-completion
default of the polling adapter. -/
def HTTP_INTERNAL_ERROR : Nat := 500

/-- The data members of `LLHTTPClient::LegacyPolledResponder`
(`llhttpclient.h:349-352`): the inherited responder state plus the cached
`mStatus` and `mReason`. -/
structure LegacyState where
  base : ResponderState
  mStatus : Nat
  mReason : String
deriving Repr, DecidableEq

/-- The `LegacyPolledResponder` constructor (`llhttpclient.h:365`):
`mStatus(HTTP_INTERNAL_ERROR)`, `mReason` default-constructed empty, and the
base state from the `ResponderBase` constructor. -/
def LegacyState.init : LegacyState :=
  { base := ResponderState.init, mStatus := HTTP_INTERNAL_ERROR, mReason := "" }

/-- Accessor `LegacyPolledResponder::http_status` (`llhttpclient.h:368`). -/
def LegacyState.http_status (ls : LegacyState) : Nat := ls.mStatus

/-- Accessor `LegacyPolledResponder::reason` (`llhttpclient.h:369`). -/
def LegacyState.reason (ls : LegacyState) : String := ls.mReason

/-- `LegacyPolledResponder::finished` (`llhttpclient.h:356-362`): cache
`mStatus = http_status; mReason = reason;` then call the base class
implementation `ResponderWithCompleted::finished`. -/
def legacy_finished (parse : String → Option LLSD) (cls : WCompletedCls)
    (ls : LegacyState) (code status : Nat) (rsn buffer : String) :
    LegacyState × List HookCall :=
  let ls1 := { ls with mStatus := status, mReason := rsn }
  let r := wcompleted_finished parse cls ls1.base code status rsn buffer
  ({ ls1 with base := r.1 }, r.2)

/-- Non-terminal events delivered to a `LegacyPolledResponder` act on the
inherited `ResponderBase` state. -/
def runLegacyEvents (ls : LegacyState) (evs : List BaseEvent) : LegacyState :=
  { ls with base := runBaseEvents ls.base evs }

/-! ## Intrusive reference counting -/

/-- Modelled from the spec: the intrusive reference count of a responder
(`mReferenceCount`, `llhttpclient.h:214`) together with the number of times the
object has been destroyed; the bodies of `intrusive_ptr_add_ref` /
`intrusive_ptr_release` are not under `src/`.  Spec: the object "is destroyed
exactly when the count reaches zero, never before". -/
structure RCState where
  count : Nat
  destructions : Nat
deriving Repr, DecidableEq

/-- A freshly allocated responder before any handle is created. -/
def RCState.init : RCState := { count := 0, destructions := 0 }

/-- Modelled from the spec: `intrusive_ptr_add_ref` — copying a handle
increments the reference count. -/
def add_ref (s : RCState) : RCState := { s with count := s.count + 1 }

/-- Modelled from the spec: `intrusive_ptr_release` — destroying a handle
decrements the reference count and deletes the object when it reaches zero. -/
def release (s : RCState) : RCState :=
  if s.count - 1 = 0 then
    { count := s.count - 1, destructions := s.destructions + 1 }
  else
    { s with count := s.count - 1 }

/-- A handle operation: creating a handle copy, or releasing one. -/
inductive RCOp where
  | add : RCOp
  | rel : RCOp
deriving Repr, DecidableEq

/-- Run a sequence of handle operations. -/
def runOps (s : RCState) : List RCOp → RCState
  | [] => s
  | .add :: rest => runOps (add_ref s) rest
  | .rel :: rest => runOps (release s) rest

/-- Number of handle creations in a trace. -/
def countAdds : List RCOp → Nat
  | [] => 0
  | .add :: rest => countAdds rest + 1
  | .rel :: rest => countAdds rest

/-- Number of handle releases in a trace. -/
def countRels : List RCOp → Nat
  | [] => 0
  | .add :: rest => countRels rest
  | .rel :: rest => countRels rest + 1

/-- A trace of handle operations is live for a starting count `c` when no
release ever brings the count to zero (so the object stays alive throughout):
each release happens while at least two references exist. -/
def staysAlive : Nat → List RCOp → Bool
  | _, [] => true
  | c, .add :: rest => staysAlive (c + 1) rest
  | c, .rel :: rest => decide (2 ≤ c) && staysAlive (c - 1) rest

/-! ## Helper lemmas -/

theorem headerMatch_eq_true {a b : String} :
    headerMatch a b = true ↔ lowerName a = lowerName b := by
  simp [headerMatch]

theorem addHeader_foldl (pairs : List (String × String)) (hs : Headers) :
    pairs.foldl (fun m p => addHeader m p.1 p.2) hs = hs ++ pairs := by
  induction pairs generalizing hs with
  | nil => simp
  | cons p t ih =>
    rw [List.foldl_cons, ih]
    simp [addHeader]

theorem received_HTTP_header_headers (s : ResponderState) :
    (received_HTTP_header s).mReceivedHeaders
      = getValuesRange s.mReceivedHeaders "set-cookie" := by
  simp [received_HTTP_header, addHeader_foldl]

theorem getValuesRange_getValuesRange (hs : Headers) (key : String) :
    getValuesRange (getValuesRange hs key) key = getValuesRange hs key := by
  simp [getValuesRange, List.filter_filter]

theorem getValues_getValuesRange_other (hs : Headers) (name key : String)
    (h : headerMatch name key = false) :
    getValues (getValuesRange hs key) name = [] := by
  have key1 : getValuesRange (getValuesRange hs key) name = [] := by
    rw [getValuesRange, getValuesRange, List.filter_filter, List.filter_eq_nil_iff]
    intro p hp
    simp only [Bool.and_eq_true, not_and]
    intro h1 h2
    have e1 := headerMatch_eq_true.1 h1
    have e2 := headerMatch_eq_true.1 h2
    have hnk : headerMatch name key = true := headerMatch_eq_true.2 (e1.symm.trans e2)
    simp [hnk] at h
  rw [getValues, key1]
  rfl

theorem runBaseEvent_mFinished (s : ResponderState) (e : BaseEvent) :
    (runBaseEvent s e).mFinished = s.mFinished := by
  cases e <;> rfl

theorem runBaseEvents_mFinished (s : ResponderState) (evs : List BaseEvent) :
    (runBaseEvents s evs).mFinished = s.mFinished := by
  induction evs generalizing s with
  | nil => rfl
  | cons e t ih => simp [runBaseEvents, List.foldl_cons] at ih ⊢
                   rw [ih, runBaseEvent_mFinished]

theorem runOps_append (l1 l2 : List RCOp) (s : RCState) :
    runOps s (l1 ++ l2) = runOps (runOps s l1) l2 := by
  induction l1 generalizing s with
  | nil => rfl
  | cons o t ih => cases o <;> simp [runOps, ih]

theorem staysAlive_runOps (ops : List RCOp) :
    ∀ c d : Nat, staysAlive c ops = true →
      runOps ⟨c, d⟩ ops = ⟨c + countAdds ops - countRels ops, d⟩
      ∧ countRels ops ≤ c + countAdds ops := by
  induction ops with
  | nil => intro c d _; simp [runOps, countAdds, countRels]
  | cons o t ih =>
    intro c d h
    cases o with
    | add =>
      simp only [staysAlive] at h
      obtain ⟨ih1, ih2⟩ := ih (c + 1) d h
      constructor
      · simp only [runOps, add_ref, ih1, countAdds, countRels]
        congr 1
        omega
      · simp only [countAdds, countRels]
        omega
    | rel =>
      simp only [staysAlive, Bool.and_eq_true, decide_eq_true_eq] at h
      obtain ⟨hc, ht⟩ := h
      obtain ⟨ih1, ih2⟩ := ih (c - 1) d ht
      have hrel : release ⟨c, d⟩ = ⟨c - 1, d⟩ := by
        simp only [release]
        rw [if_neg (by omega)]
      constructor
      · simp only [runOps, hrel, ih1, countAdds, countRels]
        congr 1
        omega
      · simp only [countAdds, countRels]
        omega

/-! ## The claims -/

/-- C7: For every sequence of `addHeader(name, value)` calls on the header
collector, `getValues(name)` returns exactly the values that were added under
that name, in insertion order, with name matching performed case-insensitively;
repeated header names accumulate and no previously added value is ever silently
overwritten (adding a header leaves every previously retrievable value in
place). -/
theorem c7_collector_getValues (pairs : List (String × String)) (hs : Headers)
    (name key value : String) :
    getValues (ofPairs pairs) name
        = (pairs.filter (fun p => headerMatch p.1 name)).map (fun p => p.2)
      ∧ getValues (addHeader hs key value) name
        = getValues hs name ++ (if headerMatch key name then [value] else []) := by
  constructor
  · rw [ofPairs, addHeader_foldl]
    simp [getValues, getValuesRange]
  · simp only [getValues, getValuesRange, addHeader, List.filter_append, List.map_append]
    by_cases h : headerMatch key name = true
    · simp [h]
    · simp [List.filter_cons, h]

/-- C2: For every responder and every prior sequence of `received_header`
calls, when the status-line event `received_HTTP_header()` fires, afterwards
the header collector contains exactly the entries that were previously held
under the case-insensitive name `set-cookie` and nothing else; every value held
under `set-cookie` survives unchanged and every non-cookie header name yields
no values any more. -/
theorem c2_cookie_reset (s : ResponderState) (name : String) :
    (received_HTTP_header s).mReceivedHeaders
        = getValuesRange s.mReceivedHeaders "set-cookie"
      ∧ getValues (received_HTTP_header s).mReceivedHeaders "set-cookie"
        = getValues s.mReceivedHeaders "set-cookie"
      ∧ (headerMatch name "set-cookie" = false →
          getValues (received_HTTP_header s).mReceivedHeaders name = []) := by
  refine ⟨received_HTTP_header_headers s, ?_, ?_⟩
  · rw [received_HTTP_header_headers]
    unfold getValues
    rw [getValuesRange_getValuesRange]
  · intro h
    rw [received_HTTP_header_headers]
    exact getValues_getValuesRange_other _ _ _ h

/-- Witness for C2: a collector holding a cookie and a plain header; after the
status-line event the cookie survives and the plain header is gone. -/
theorem c2_cookie_reset_witness :
    getValues (received_HTTP_header
        { ResponderState.init with
            mReceivedHeaders := [("Set-Cookie", "a=1"), ("X-Test", "b")] }).mReceivedHeaders
        "set-cookie" = ["a=1"]
      ∧ getValues (received_HTTP_header
        { ResponderState.init with
            mReceivedHeaders := [("Set-Cookie", "a=1"), ("X-Test", "b")] }).mReceivedHeaders
        "X-Test" = [] := by
  constructor
  · rw [(c2_cookie_reset { ResponderState.init with
        mReceivedHeaders := [("Set-Cookie", "a=1"), ("X-Test", "b")] } "X-Test").2.1]
    decide
  · exact (c2_cookie_reset { ResponderState.init with
        mReceivedHeaders := [("Set-Cookie", "a=1"), ("X-Test", "b")] } "X-Test").2.2
      (by decide)

/-- C1: For every responder instance, `is_finished()` returns false from
construction and through every sequence of non-terminal transport events; the
terminal `finished(code, status, reason, channels, buffer)` call of every
concrete responder flavor sets it true while recording the transport code and
changing no other base field (URL and received headers stay as they were); and
the flag is monotonic — no event step ever resets it.  That no event call is
delivered after the terminal call is the engine-side contract (the terminal
call is the last call the engine ever makes), which the trace model reflects by
placing the terminal call after the event phase. -/
theorem c1_finished_lifecycle :
    ResponderState.init.mFinished = false
    ∧ (∀ (s : ResponderState) (evs : List BaseEvent), s.mFinished = false →
        (runBaseEvents s evs).mFinished = false)
    ∧ (∀ (parse : String → Option LLSD) (cls : WCompletedCls) (s : ResponderState)
        (code status : Nat) (rsn buffer : String),
        (wcompleted_finished parse cls s code status rsn buffer).1
          = { s with mCode := code, mFinished := true })
    ∧ (∀ (parse : String → Option LLSD) (cls : WResultCls) (s : ResponderState)
        (code status : Nat) (rsn buffer : String),
        (wresult_finished parse cls s code status rsn buffer).1
          = { s with mCode := code, mFinished := true })
    ∧ (∀ (s : ResponderState) (code status : Nat) (rsn : String),
        (headersOnly_finished s code status rsn).1
          = { s with mCode := code, mFinished := true })
    ∧ (∀ (parse : String → Option LLSD) (cls : WCompletedCls) (ls : LegacyState)
        (code status : Nat) (rsn buffer : String),
        (legacy_finished parse cls ls code status rsn buffer).1.base
          = { ls.base with mCode := code, mFinished := true })
    ∧ (∀ (s : ResponderState) (e : BaseEvent), s.mFinished = true →
        (runBaseEvent s e).mFinished = true) := by
  refine ⟨rfl, ?_, ?_, ?_, ?_, ?_, ?_⟩
  · intro s evs h
    rw [runBaseEvents_mFinished]
    exact h
  · intro parse cls s code status rsn buffer
    rfl
  · intro parse cls s code status rsn buffer
    rfl
  · intro s code status rsn
    rfl
  · intro parse cls ls code status rsn buffer
    rfl
  · intro s e h
    rw [runBaseEvent_mFinished]
    exact h

/-- Witness for C1: a fresh responder stays unfinished through an event
sequence, and a finished responder stays finished through a further event. -/
theorem c1_finished_lifecycle_witness :
    (runBaseEvents ResponderState.init
        [BaseEvent.header "a" "b", BaseEvent.statusLine]).mFinished = false
    ∧ (runBaseEvent { ResponderState.init with mFinished := true }
        (BaseEvent.header "a" "b")).mFinished = true :=
  ⟨c1_finished_lifecycle.2.1 ResponderState.init
      [BaseEvent.header "a" "b", BaseEvent.statusLine] rfl,
   c1_finished_lifecycle.2.2.2.2.2.2 { ResponderState.init with mFinished := true }
      (BaseEvent.header "a" "b") rfl⟩

/-- C3: For every `ResponderWithResult` responder, the terminal call with an
HTTP status in the success range 200–299 decodes the body as LLSD and invokes
only the `result` hook with that value — never `errorWithContent` or `error` —
while the terminal call with a non-success status first invokes
`errorWithContent` with the status, reason and the decoded (possibly empty)
structured body, and never the `result` hook. -/
theorem c3_typed_success_error (parse : String → Option LLSD) (cls : WResultCls)
    (s : ResponderState) (code status : Nat) (rsn buffer : String) :
    (isSuccess status = true →
      (wresult_finished parse cls s code status rsn buffer).2
        = [HookCall.resultCall ((parse buffer).getD LLSD.undef)]
      ∧ (∀ st r c, HookCall.errorWithContentCall st r c
          ∉ (wresult_finished parse cls s code status rsn buffer).2)
      ∧ (∀ st r, HookCall.errorCall st r
          ∉ (wresult_finished parse cls s code status rsn buffer).2))
    ∧ (isSuccess status = false →
      (wresult_finished parse cls s code status rsn buffer).2.head?
        = some (HookCall.errorWithContentCall status rsn
            (decode_llsd_body parse status buffer))
      ∧ (∀ c, HookCall.resultCall c
          ∉ (wresult_finished parse cls s code status rsn buffer).2)) := by
  obtain ⟨ewc, err⟩ := cls
  constructor
  · intro h
    refine ⟨?_, ?_, ?_⟩
    · simp [wresult_finished, wresult_dispatch, decode_llsd_body, h]
    · intro st r c
      simp [wresult_finished, wresult_dispatch, decode_llsd_body, h]
    · intro st r
      simp [wresult_finished, wresult_dispatch, decode_llsd_body, h]
  · intro h
    constructor
    · cases ewc <;> cases err <;>
        simp [wresult_finished, wresult_dispatch, decode_llsd_body, h]
    · intro c
      cases ewc <;> cases err <;>
        simp [wresult_finished, wresult_dispatch, decode_llsd_body, h]

/-- Witness for C3: status 200 with a well-formed body reaches only `result`;
status 400 and status 500 with an empty body reach `errorWithContent` with the
copied (respectively empty) body value. -/
theorem c3_typed_success_error_witness :
    (wresult_finished (fun b => some (LLSD.parsedDoc b)) ⟨false, false⟩
        ResponderState.init 0 200 "OK" "body").2
      = [HookCall.resultCall (LLSD.parsedDoc "body")]
    ∧ (wresult_finished (fun _ => none) ⟨false, false⟩
        ResponderState.init 0 400 "Bad Request" "oops").2.head?
      = some (HookCall.errorWithContentCall 400 "Bad Request" (LLSD.str "oops"))
    ∧ (wresult_finished (fun _ => none) ⟨false, false⟩
        ResponderState.init 0 500 "Internal Server Error" "").2.head?
      = some (HookCall.errorWithContentCall 500 "Internal Server Error" (LLSD.str "")) :=
  ⟨((c3_typed_success_error (fun b => some (LLSD.parsedDoc b)) ⟨false, false⟩
      ResponderState.init 0 200 "OK" "body").1 (by decide)).1,
   ((c3_typed_success_error (fun _ => none) ⟨false, false⟩
      ResponderState.init 0 400 "Bad Request" "oops").2 (by decide)).1,
   ((c3_typed_success_error (fun _ => none) ⟨false, false⟩
      ResponderState.init 0 500 "Internal Server Error" "").2 (by decide)).1⟩

/-- C4: For every `LegacyPolledResponder` and every terminal call
`finished(code, http_status, reason, channels, buffer)`, afterwards the
accessors `http_status()` and `reason()` return exactly the `http_status` and
`reason` arguments of the terminal call, regardless of which hooks the subclass
overrides, and normal dispatch through the `ResponderWithCompleted` base class
still occurs (same hook invocations, finished flag set). -/
theorem c4_legacy_caches (parse : String → Option LLSD) (cls : WCompletedCls)
    (ls : LegacyState) (code status : Nat) (rsn buffer : String) :
    LegacyState.http_status (legacy_finished parse cls ls code status rsn buffer).1 = status
    ∧ LegacyState.reason (legacy_finished parse cls ls code status rsn buffer).1 = rsn
    ∧ (legacy_finished parse cls ls code status rsn buffer).2
      = wcompleted_dispatch parse cls status rsn buffer
    ∧ (legacy_finished parse cls ls code status rsn buffer).1.base.mFinished = true :=
  ⟨rfl, rfl, rfl, rfl⟩

/-- C5: For every `ResponderWithCompleted` responder that does not override
`completedRaw`, the terminal call routes through the default `completedRaw`,
which turns the raw body into a structured LLSD value via `decode_llsd_body`
for every HTTP status (success or not) and forwards
`(status, reason, decodedValue)` to the `completed` hook; a responder that
overrides `completedRaw` bypasses structured decoding entirely and its hook
receives the body byte-for-byte as the engine delivered it. -/
theorem c5_structured_vs_raw (parse : String → Option LLSD) (co : Bool)
    (s : ResponderState) (code status : Nat) (rsn buffer : String) :
    (wcompleted_finished parse ⟨false, co⟩ s code status rsn buffer).2.head?
      = some (HookCall.completedCall status rsn (decode_llsd_body parse status buffer))
    ∧ (wcompleted_finished parse ⟨true, co⟩ s code status rsn buffer).2
      = [HookCall.completedRawCall status rsn buffer] :=
  ⟨rfl, rfl⟩

/-- C6: Each handle copy increments the reference count and each handle release
decrements it; for every interleaving of `N` handle creations with `N − 1`
releases in which no release is premature, the responder is still alive (never
destroyed, count 1) after those `N − 1` releases, and the `N`-th release
destroys it exactly once, reaching count zero. -/
theorem c6_refcount (N : Nat) (ops : List RCOp)
    (hadds : countAdds ops = N) (hrels : countRels ops = N - 1)
    (hN : 1 ≤ N) (halive : staysAlive 0 ops = true) :
    runOps RCState.init ops = { count := 1, destructions := 0 }
    ∧ runOps RCState.init (ops ++ [RCOp.rel]) = { count := 0, destructions := 1 } := by
  obtain ⟨h1, h2⟩ := staysAlive_runOps ops 0 0 halive
  rw [hadds, hrels] at h1
  have hrun : runOps RCState.init ops = { count := 1, destructions := 0 } := by
    rw [show RCState.init = (⟨0, 0⟩ : RCState) from rfl, h1]
    congr 1
    omega
  refine ⟨hrun, ?_⟩
  rw [runOps_append, hrun]
  rfl

/-- Witness for C6: three handles, two releases leave the responder alive; the
third release destroys it exactly once. -/
theorem c6_refcount_witness :
    runOps RCState.init [RCOp.add, RCOp.add, RCOp.add, RCOp.rel, RCOp.rel]
      = { count := 1, destructions := 0 }
    ∧ runOps RCState.init
        ([RCOp.add, RCOp.add, RCOp.add, RCOp.rel, RCOp.rel] ++ [RCOp.rel])
      = { count := 0, destructions := 1 } :=
  c6_refcount 3 [RCOp.add, RCOp.add, RCOp.add, RCOp.rel, RCOp.rel]
    (by decide) (by decide) (by decide) (by decide)

/-- C8: For every terminal call whose body fails to parse as LLSD, the decoding
step yields the empty/absent structured value (`LLSD.undef`) on a success
status (the only case in which a parse is attempted; a non-success status
copies the body as-is), and that value is passed to the same `result` /
`completed` hooks as any other completion; no distinct fault, abort or separate
error channel is ever produced by the typed dispatch. -/
theorem c8_malformed_body (parse : String → Option LLSD) (clsR : WResultCls)
    (s : ResponderState) (code status : Nat) (rsn buffer : String)
    (hfail : parse buffer = none) :
    decode_llsd_body parse status buffer
      = (if isSuccess status then LLSD.undef else LLSD.str buffer)
    ∧ (isSuccess status = true →
        (wresult_finished parse clsR s code status rsn buffer).2
          = [HookCall.resultCall LLSD.undef])
    ∧ (isSuccess status = true →
        (wcompleted_finished parse ⟨false, true⟩ s code status rsn buffer).2
          = [HookCall.completedCall status rsn LLSD.undef])
    ∧ ((wresult_finished parse clsR s code status rsn buffer).2.any
        HookCall.isFatal) = false := by
  obtain ⟨ewc, err⟩ := clsR
  refine ⟨?_, ?_, ?_, ?_⟩
  · simp [decode_llsd_body, hfail]
  · intro h
    simp [wresult_finished, wresult_dispatch, decode_llsd_body, hfail, h]
  · intro h
    simp [wcompleted_finished, wcompleted_dispatch, decode_llsd_body, hfail, h]
  · cases hs : isSuccess status <;> cases ewc <;> cases err <;>
      simp [wresult_finished, wresult_dispatch, decode_llsd_body, HookCall.isFatal, hs]

/-- Witness for C8: a body the codec rejects, delivered with status 200, is
handed to the `result` hook as the empty value. -/
theorem c8_malformed_body_witness :
    decode_llsd_body (fun _ => none) 200 "not-llsd"
      = (if isSuccess 200 then LLSD.undef else LLSD.str "not-llsd")
    ∧ (wresult_finished (fun _ => none) ⟨true, true⟩
        ResponderState.init 0 200 "OK" "not-llsd").2
      = [HookCall.resultCall LLSD.undef] :=
  ⟨(c8_malformed_body (fun _ => none) ⟨true, true⟩
      ResponderState.init 0 200 "OK" "not-llsd" rfl).1,
   (c8_malformed_body (fun _ => none) ⟨true, true⟩
      ResponderState.init 0 200 "OK" "not-llsd" rfl).2.1 (by decide)⟩

/-- C9 counterexample: a `ResponderWithCompleted` on which the caller supplies
no hook override at all reaches, on any terminal call, the default `completed`
hook, which aborts the process (the source documents the default as "aborts,
as it should never be called", `llhttpclient.h:281-282`) — so it is not true
that no default hook in the framework aborts. -/
theorem c9_counterexample :
    ((wcompleted_finished (fun _ => none) ⟨false, false⟩
        ResponderState.init 0 404 "Not Found" "").2.any HookCall.isFatal) = true := rfl

/-- C9 (amended): For every responder on which the caller supplies no
error-hook override, the default error path logs the condition and continues:
the `ResponderWithResult` defaults (`errorWithContent` forwards to `error`,
`error` logs) and the `ResponderHeadersOnly` default are non-fatal for every
completion, as is any `ResponderWithCompleted` that overrides at least one of
its two hooks; only the `ResponderWithCompleted::completed` default — reachable
solely when a subclass overrides neither hook, a misuse the source flags — is
fatal by design. -/
theorem c9_defaults_nonfatal (parse : String → Option LLSD) (clsR : WResultCls)
    (clsC : WCompletedCls) (s : ResponderState) (code status : Nat)
    (rsn buffer : String)
    (hC : clsC.rawOverridden = true ∨ clsC.completedOverridden = true) :
    ((wresult_finished parse clsR s code status rsn buffer).2.any
        HookCall.isFatal) = false
    ∧ ((headersOnly_finished s code status rsn).2.any HookCall.isFatal) = false
    ∧ ((wcompleted_finished parse clsC s code status rsn buffer).2.any
        HookCall.isFatal) = false
    ∧ (clsR.ewcOverridden = false → clsR.errOverridden = false →
        isSuccess status = false →
        HookCall.logCall status rsn
          ∈ (wresult_finished parse clsR s code status rsn buffer).2) := by
  obtain ⟨ewc, err⟩ := clsR
  obtain ⟨raw, com⟩ := clsC
  refine ⟨?_, ?_, ?_, ?_⟩
  · cases hs : isSuccess status <;> cases ewc <;> cases err <;>
      simp [wresult_finished, wresult_dispatch, decode_llsd_body, HookCall.isFatal, hs]
  · simp [headersOnly_finished, HookCall.isFatal]
  · cases raw <;> cases com <;>
      simp_all [wcompleted_finished, wcompleted_dispatch, decode_llsd_body,
        HookCall.isFatal]
  · intro h1 h2 h3
    cases ewc <;> cases err <;>
      simp_all [wresult_finished, wresult_dispatch, decode_llsd_body]

/-- Witness for C9 (amended): at status 500 with no overrides, the
`ResponderWithResult` default path is non-fatal and contains the log call. -/
theorem c9_defaults_nonfatal_witness :
    ((wresult_finished (fun _ => none) ⟨false, false⟩
        ResponderState.init 0 500 "ISE" "").2.any HookCall.isFatal) = false
    ∧ HookCall.logCall 500 "ISE"
      ∈ (wresult_finished (fun _ => none) ⟨false, false⟩
          ResponderState.init 0 500 "ISE" "").2 :=
  ⟨(c9_defaults_nonfatal (fun _ => none) ⟨false, false⟩ ⟨true, false⟩
      ResponderState.init 0 500 "ISE" "" (Or.inl rfl)).1,
   (c9_defaults_nonfatal (fun _ => none) ⟨false, false⟩ ⟨true, false⟩
      ResponderState.init 0 500 "ISE" "" (Or.inl rfl)).2.2.2 rfl rfl (by decide)⟩

/-- C10: For every `LegacyPolledResponder` that has not yet received its
terminal call — freshly constructed, or after any sequence of non-terminal
events — `http_status()` returns `HTTP_INTERNAL_ERROR` (the constructor's
initial value), `reason()` returns the empty string, and `is_finished()` is
still false. -/
theorem c10_legacy_precompletion (evs : List BaseEvent) :
    LegacyState.http_status LegacyState.init = HTTP_INTERNAL_ERROR
    ∧ LegacyState.reason LegacyState.init = ""
    ∧ LegacyState.init.base.mFinished = false
    ∧ LegacyState.http_status (runLegacyEvents LegacyState.init evs)
      = HTTP_INTERNAL_ERROR
    ∧ LegacyState.reason (runLegacyEvents LegacyState.init evs) = ""
    ∧ (runLegacyEvents LegacyState.init evs).base.mFinished = false := by
  refine ⟨rfl, rfl, rfl, rfl, rfl, ?_⟩
  show (runBaseEvents LegacyState.init.base evs).mFinished = false
  rw [runBaseEvents_mFinished]
  rfl

end LLHTTP
